import Mathlib

/- Formal model of the `physics_engine` repository (src/physics_types.py and
src/physics.py): a 2D geometry kernel (points, unit directions, lines, rays,
segments, containment and intersection) and a per-frame ball/surface
simulation built on it.

Embedding conventions:
  * Python floats are modelled as real numbers; `math.sqrt`/`math.hypot`,
    `math.cos`, `math.sin` become `Real.sqrt`, `Real.cos`, `Real.sin`.
  * `math.isclose(a, b, abs_tol=tol)` is `|a - b| <= max (1e-9 * max |a| |b|) tol`
    (Python's definition with the default rel_tol = 1e-9; the default abs_tol
    is 0, so `isclose t 0` holds exactly when `t = 0`).
  * Python `None` becomes `Option.none`; a function that can return `None`
    returns an `Option`.  `math.nan` results (from `loc_on_line`) are also
    modelled as `none`, and `math.inf` only ever appears here inside a path's
    `scalar_bounds`, which we represent as `Option ℝ` bounds (`none` = the
    bound is infinite, so its padded comparison always holds).
  * Python `bool` results become `Prop` (classical `if` is used to branch on
    them, mirroring the source's control flow).
  * Constructors that raise (`Normal(0, 0)`, `Vect.normdef(0, 0)`, a Segment
    with coincident endpoints) are modelled as total functions; the
    degenerate inputs are excluded by explicit hypotheses where a theorem
    needs them, matching the spec's `DegenerateDirection` fail-fast rule.
  * A class instance is a structure holding the attributes the constructor
    stores; attributes the constructor derives deterministically from the
    stored ones (a Segment's `_normal` and `length`) are definitions on the
    structure.  The `_end` sentinel of Line/Ray (a point with `math.inf`
    coordinates) is used by no code path modelled here and is omitted.
-/

noncomputable section

open Classical

namespace PhysicsEngine

/-- Python `math.isclose(a, b, abs_tol=tol)` (rel_tol left at its default 1e-9):
`abs(a-b) <= max(rel_tol * max(abs(a), abs(b)), abs_tol)`. -/
def isclose_tol (a b tol : ℝ) : Prop :=
  |a - b| ≤ max (1e-9 * max |a| |b|) tol

/-- `math.isclose(a, b)` with both tolerances at their defaults (abs_tol = 0). -/
def isclose (a b : ℝ) : Prop := isclose_tol a b 0

/-- `Point` (physics_types.py): a pair of coordinates `p_x`, `p_y`. -/
structure Point where
  p_x : ℝ
  p_y : ℝ

/-- `Point.__eq__`: `math.isclose` on both coordinates. -/
def pointEq (p q : Point) : Prop :=
  isclose p.p_x q.p_x ∧ isclose p.p_y q.p_y

/-- `physics_formula.move_through_normal(point, normal, t)`:
the point translated by `t` times the direction. -/
def move_through_normal (p : Point) (n : ℝ × ℝ) (t : ℝ) : Point :=
  ⟨p.p_x + t * n.1, p.p_y + t * n.2⟩

/-- `physics_formula.line_length(start, end)`: `math.hypot(y2-y1, x2-x1)`. -/
def line_length (s e : Point) : ℝ :=
  Real.sqrt ((e.p_y - s.p_y) ^ 2 + (e.p_x - s.p_x) ^ 2)

/-- `physics_formula.normal_normalize(x, y)`: divide by `math.hypot(x, y)`.
(The source divides by zero for `(0, 0)`; here that input yields `(0, 0)`.) -/
def normal_normalize (x y : ℝ) : ℝ × ℝ :=
  (x / Real.sqrt (x ^ 2 + y ^ 2), y / Real.sqrt (x ^ 2 + y ^ 2))

/-- `Normal.__init__(x, y)`: keep `(x, y)` when `math.hypot(x, y)` is already
close to 1, otherwise normalize.  (The `x == 0 and y == 0` branch raises
ValueError in the source; theorems exclude it by hypothesis.) -/
def mkNormal (x y : ℝ) : ℝ × ℝ :=
  if ¬ isclose (Real.sqrt (x ^ 2 + y ^ 2)) 1 then normal_normalize x y else (x, y)

/-- `Normal.__neg__`: `Normal(-x, -y)` (a constructor call, hence `mkNormal`). -/
def normalNeg (n : ℝ × ℝ) : ℝ × ℝ := mkNormal (-n.1) (-n.2)

/-- `Normal.__abs__`: `self` when `y > 0`, else `-self`. -/
def normalAbs (n : ℝ × ℝ) : ℝ × ℝ := if n.2 > 0 then n else normalNeg n

/-- `Normal.__eq__`: `math.isclose` on both components. -/
def normalEq (n m : ℝ × ℝ) : Prop :=
  isclose n.1 m.1 ∧ isclose n.2 m.2

/-- `physics_formula.loc_on_line(point, line)` for a line with origin `o` and
direction `n`: the scalar `t` with `point = o + t * n`, or `none` (`math.nan`
in the source) when the point is off the line. -/
def loc_on_line (p o : Point) (n : ℝ × ℝ) : Option ℝ :=
  if n.1 = 0 then
    if isclose p.p_x o.p_x then some ((p.p_y - o.p_y) / n.2) else none
  else if n.2 = 0 then
    if isclose p.p_y o.p_y then some ((p.p_x - o.p_x) / n.1) else none
  else
    let tx := (p.p_x - o.p_x) / n.1
    let ty := (p.p_y - o.p_y) / n.2
    if isclose tx ty then some ((tx + ty) / 2) else none

/-- `physics_formula.contains_check(p, path)`: project `p` onto the reference
line through the path's origin/direction and test the parameter against the
path's `scalar_bounds`, padded by `ep = 1e-9`.  `bounds` is the path's
`scalar_bounds`; a `none` bound stands for the source's `±math.inf`, whose
padded comparison always holds.  A `none` parameter is the source's
`math.nan`: `isclose(nan, 0)` is False and `isnan(t)` returns False. -/
def contains_check (p o : Point) (n : ℝ × ℝ) (bounds : Option ℝ × Option ℝ) : Prop :=
  match loc_on_line p o n with
  | none => False
  | some t =>
      isclose t 0 ∨
        ((match bounds.1 with
          | none => True
          | some t_min => t_min - 1e-9 ≤ t) ∧
         (match bounds.2 with
          | none => True
          | some t_max => t ≤ t_max + 1e-9))

/-- `Segment` (physics_types.py): stores its two endpoints. -/
structure Segment where
  origin : Point
  «end» : Point

/-- The Segment constructor's `_normal`: `Normal.from_pair(normal_normalize(x2-x1, y2-y1))`
(`Normal.from_pair` is a `Normal(...)` constructor call, hence `mkNormal`). -/
def Segment.normal (s : Segment) : ℝ × ℝ :=
  let d := normal_normalize (s.«end».p_x - s.origin.p_x) (s.«end».p_y - s.origin.p_y)
  mkNormal d.1 d.2

/-- `AbstractFinitePath.length`: `physics_formula.line_length(origin, end)`. -/
def Segment.length (s : Segment) : ℝ := line_length s.origin s.«end»

/-- `AbstractFinitePath.scalar_bounds` is `(0, 1)`. -/
def Segment.scalar_bounds : Option ℝ × Option ℝ := (some 0, some 1)

/-- `AbstractFinitePath.point_at_t(t)`: move `t * length` along the normal
from the origin, then return the point only if it lies in the segment's
bounding box (else the source returns `None`). -/
def Segment.point_at_t (s : Segment) (t : ℝ) : Option Point :=
  let p := move_through_normal s.origin s.normal (t * s.length)
  if min s.origin.p_x s.«end».p_x ≤ p.p_x ∧ p.p_x ≤ max s.origin.p_x s.«end».p_x ∧
     min s.origin.p_y s.«end».p_y ≤ p.p_y ∧ p.p_y ≤ max s.origin.p_y s.«end».p_y
  then some p else none

/-- `point in segment` (`AbstractPath.__contains__` via `contains_check`),
with the Segment's own origin, direction and `(0, 1)` bounds. -/
def seg_contains (p : Point) (s : Segment) : Prop :=
  contains_check p s.origin s.normal Segment.scalar_bounds

/-- `Segment.__eq__`: `(self._origin == other.end or self._end == other.end)
and abs(self.normal) == abs(other.normal)`. -/
def segEq (a b : Segment) : Prop :=
  (pointEq a.origin b.«end» ∨ pointEq a.«end» b.«end») ∧
    normalEq (normalAbs a.normal) (normalAbs b.normal)

/-- `Ray` (physics_types.py): origin and unit direction.  (The stored `_end`
sentinel with `math.inf` coordinates is omitted; nothing modelled reads it.) -/
structure Ray where
  origin : Point
  normal : ℝ × ℝ

/-- `Ray.point_at_t(t)`: `None` for `t < 0`, else origin moved `t` along the
direction. -/
def Ray.point_at_t (r : Ray) (t : ℝ) : Option Point :=
  if t < 0 then none else some (move_through_normal r.origin r.normal t)

/-- `Line` (physics_types.py): the attributes its constructor stores after
canonicalization (see `mkLine`). -/
structure Line where
  origin : Point
  normal : ℝ × ℝ

/-- `physics_formula.find_virtual_intercept(origin, normal)`: `None` when
`normal.x == 0`, else the origin moved by `t = -origin.p_x / normal.x`. -/
def find_virtual_intercept (o : Point) (n : ℝ × ℝ) : Option Point :=
  if n.1 = 0 then none else some (move_through_normal o n (-o.p_x / n.1))

/-- `Line.__init__(origin, normal)`: move the origin to the virtual intercept
unless `abs(normal) == Normal(0, 1)` or there is no intercept; then flip a
direction with negative `y` to its negation. -/
def mkLine (o : Point) (n : ℝ × ℝ) : Line :=
  let o1 := match find_virtual_intercept o n with
    | some i => if ¬ normalEq (normalAbs n) (0, 1) then i else o
    | none => o
  let n1 := if n.2 < 0 then normalNeg n else n
  ⟨o1, n1⟩

/-- `AbstractPath.__eq__` for two Lines: equal origins and equal normals. -/
def lineEq (a b : Line) : Prop :=
  pointEq a.origin b.origin ∧ normalEq a.normal b.normal

/-- `Line.scalar_bounds` is `(-math.inf, math.inf)`. -/
def Line.scalar_bounds : Option ℝ × Option ℝ := (none, none)

/-- `point in line` (`AbstractPath.__contains__` via `contains_check`) for a
Line: its `(-inf, inf)` bounds make the padded bound test vacuous. -/
def line_contains (p : Point) (l : Line) : Prop :=
  contains_check p l.origin l.normal Line.scalar_bounds

/-- The `Point | AbstractPath | None` result of the Segment-Segment
intersection routines (`None` is the surrounding `Option`). -/
inductive SegResult where
  | pt : Point → SegResult
  | seg : Segment → SegResult

/-- The key Python's `sorted(data, key=key)` computes in
`compare_ending_paths`: `loc_on_line(point, ref_line)`.  An off-line point
gives `math.nan` there, whose sort order Python leaves unspecified; it is
unreachable under the collinearity guard, and `0` stands in for it. -/
def sort_key (o : Point) (n : ℝ × ℝ) (p : Point) : ℝ :=
  (loc_on_line p o n).getD 0

/-- Stable insertion of a point into a key-sorted list (a point with an equal
key goes after the ones already there, as Python's stable sort does). -/
def insort (o : Point) (n : ℝ × ℝ) (p : Point) : List Point → List Point
  | [] => [p]
  | q :: l => if sort_key o n q ≤ sort_key o n p then q :: insort o n p l
              else p :: q :: l

/-- Python's `sorted(points, key=key)`: ascending by key, stable. -/
def sorted_by_key (o : Point) (n : ℝ × ℝ) (l : List Point) : List Point :=
  l.foldl (fun acc p => insort o n p acc) []

/-- `physics_formula.compare_ending_paths(a, b)` for two Segments: sort the
four defining points along the reference line through `a.origin` with
direction `a.normal`, take the middle two.  The `sorting_data[2] == math.inf`
branch (returning a Ray) fires only when an operand is a Ray, whose `end`
has infinite coordinates; for Segment operands every key is finite and the
branch is unreachable, so it is omitted here. -/
def compare_ending_paths (a b : Segment) : Option SegResult :=
  let o := a.origin
  let n := a.normal
  let sorted_points := sorted_by_key o n [a.origin, a.«end», b.origin, b.«end»]
  let p1 := sorted_points.getD 1 a.origin
  let p2 := sorted_points.getD 2 a.origin
  if pointEq p1 p2 then some (.pt p1)
  else
    let test_seg : Segment := ⟨p1, p2⟩
    if segEq test_seg a ∨ segEq test_seg b then some (.seg test_seg)
    else if seg_contains p1 a ∧ seg_contains p2 b ∧ seg_contains p1 b ∧ seg_contains p2 a
    then some (.seg ⟨p1, p2⟩)
    else none

/-- `physics_formula.check_collinear(a, b)` for two Segments: not collinear
(return `None`) unless the canonicalized directions agree and each origin
lies on the other's infinite extension; two Segments are both
`AbstractFinitePath`, so the first `isinstance` branch applies and the
result is `compare_ending_paths(a, b)`. -/
def check_collinear (a b : Segment) : Option SegResult :=
  let ref_a := mkLine a.origin a.normal
  let ref_b := mkLine b.origin b.normal
  if ¬ normalEq (normalAbs a.normal) (normalAbs b.normal) ∨
     ¬ line_contains a.origin ref_b ∨ ¬ line_contains b.origin ref_a
  then none
  else compare_ending_paths a b

/-- `Vect.normdef(x, y)`: magnitude together with the stored `Normal(x, y)`.
(The `(0, 0)` input raises ValueError in the source.)  Note the source's
`mag = (y/normal.y) + (x/normal.x) / 2` divides only the second summand
by 2 (Python operator precedence), which is modelled as written. -/
def vect_normdef (x y : ℝ) : ℝ × (ℝ × ℝ) :=
  let n := mkNormal x y
  let mag := if y = 0 then x / n.1
             else if x = 0 then y / n.2
             else y / n.2 + x / n.1 / 2
  (mag, n)

/-- `physics_formula.cross_product(x1, y1, x2, y2)`. -/
def cross_product (x1 y1 x2 y2 : ℝ) : ℝ := x1 * y2 - x2 * y1

/-- `physics_formula.dot_product(x1, y1, x2, y2)`. -/
def dot_product (x1 y1 x2 y2 : ℝ) : ℝ := x1 * x2 + y1 * y2

/-- A `Vect`'s `x` component: `magnitude * normal.x`. -/
def vect_x (v : ℝ × (ℝ × ℝ)) : ℝ := v.1 * v.2.1

/-- A `Vect`'s `y` component: `magnitude * normal.y`. -/
def vect_y (v : ℝ × (ℝ × ℝ)) : ℝ := v.1 * v.2.2

/-- `AbstractDirection.cross` on two Vects. -/
def vect_cross (r s : ℝ × (ℝ × ℝ)) : ℝ :=
  cross_product (vect_x r) (vect_y r) (vect_x s) (vect_y s)

/-- `physics_formula.intersects_check(a, b)` for two Segments
(`check_instance_return_point` yields `.end` for a Segment): the parametric
solve.  The collinear fallthrough returns `(0.0, 0.0)`; the
parallel-disjoint `(inf, inf)` return is `none`. -/
def intersects_check (a b : Segment) : Option (ℝ × ℝ) :=
  let r := vect_normdef (a.«end».p_x - a.origin.p_x) (a.«end».p_y - a.origin.p_y)
  let s := vect_normdef (b.«end».p_x - b.origin.p_x) (b.«end».p_y - b.origin.p_y)
  let r_cross_s := vect_cross r s
  let q_minus_p := vect_normdef (b.origin.p_x - a.origin.p_x) (b.origin.p_y - a.origin.p_y)
  let qmp_cross_r := vect_cross q_minus_p r
  if isclose_tol r_cross_s 0 1e-9 then
    if isclose_tol qmp_cross_r 0 1e-9 then some (0, 0) else none
  else
    some (vect_cross q_minus_p s / r_cross_s, qmp_cross_r / r_cross_s)

/-- `physics_formula.intersects_line(a, b)` for two Segments: collinear
resolution first (a returned Point or Segment is truthy and is the result);
otherwise the parametric solve with both parameters clamped to the Segments'
`(0, 1)` bounds padded by `ep = 1e-9`, the accepted intersection being
`a.point_at_t(t1)` (which itself may be `None`). -/
def intersects_line (a b : Segment) : Option SegResult :=
  match check_collinear a b with
  | some c => some c
  | none =>
      match intersects_check a b with
      | none => none
      | some (t1, t2) =>
          if -1e-9 ≤ t1 ∧ t1 ≤ 1 + 1e-9 ∧ -1e-9 ≤ t2 ∧ t2 ≤ 1 + 1e-9 then
            (a.point_at_t t1).map SegResult.pt
          else none

/-- Modelled from the spec: `SurfaceType` is imported by `physics.py` but its
definition is not under `src/`; spec section 3 gives the classification
{inward, outward, double-sided} that `ball_dist_from_every_surface` matches
on as `IN`, `OUT`, `DOUBLE`. -/
inductive SurfaceType where
  | IN | OUT | DOUBLE

/-- Modelled from the spec: the `Surface` class body in `physics_types.py` is
elided (`...`), and `physics.py` constructs it with `start`, `end` and
`surface_type` keywords; spec section 3 calls it "a Segment tagged with a
classification".  Only the attributes `physics.py` reads are modelled. -/
structure Surface where
  start : Point
  «end» : Point
  surface_type : SurfaceType

/-- Modelled from the spec: the `Ball` class body in `physics_types.py` is
elided (`...`).  Fields are the attributes `physics.py` and `tester.py`
read or write: position, per-frame velocity and acceleration components,
radius, and the bearing form of the velocity (speed `v_m`, direction `v_d`
in degrees) that the probe of spec section 4.6 step 1 uses. -/
structure Ball where
  p_x : ℝ
  p_y : ℝ
  v_x : ℝ
  v_y : ℝ
  a_x : ℝ
  a_y : ℝ
  r : ℝ
  v_m : ℝ
  v_d : ℝ

-- `_Constants` (physics.py).
namespace Constants

def GRAVITY : ℝ := 4000
def BOUNCE_FACTOR_X : ℝ := 1
def BOUNCE_FACTOR_Y : ℝ := 1
def FRICTIONAL_CONSTANT : ℝ := 1
def SPEED_LIMIT_X : ℝ := 2000
def JUMP_HEIGHT : ℝ := 1100
def SIDEWARD_PUSH_ACCELERATION : ℝ := 2100

end Constants

/-- `PhysicsModel` (physics.py): the attributes `__init__` stores.
`fps` is a positive integer in the source, held here as a real. -/
structure PhysicsModel where
  gravity : ℝ
  bounce_factor_x : ℝ
  bounce_factor_y : ℝ
  frictional_constant : ℝ
  surfaces : List Surface
  width : ℝ
  height : ℝ
  fps : ℝ
  ball : Ball

/-- `PhysicsModel.__init__(fps, width, height)` together with `_init_ball`
(the source's Ball constructor call gives no bearing components; the
modelled `v_m`/`v_d` start at 0, matching the zero initial velocity). -/
def PhysicsModel.init (fps width height : ℝ) : PhysicsModel where
  gravity := Constants.GRAVITY / fps ^ 2
  bounce_factor_x := Constants.BOUNCE_FACTOR_X
  bounce_factor_y := Constants.BOUNCE_FACTOR_Y
  frictional_constant := Real.rpow Constants.FRICTIONAL_CONSTANT (1 / fps)
  surfaces := [⟨⟨0, 0⟩, ⟨width, 0⟩, .IN⟩,
               ⟨⟨width, 0⟩, ⟨width, height⟩, .IN⟩,
               ⟨⟨width, height⟩, ⟨0, height⟩, .IN⟩,
               ⟨⟨0, height⟩, ⟨0, 0⟩, .IN⟩]
  width := width
  height := height
  fps := fps
  ball := ⟨(⌊width / 2⌋ : ℤ), height, 0, 0, 0, 0, 5, 0, 0⟩

/-- One entry of `ball_dist_from_every_surface`: the signed perpendicular
distance of the ball's center from the surface's infinite extension, sign
set by the surface's classification (`length` is `(...)**0.5`). -/
def surface_dist (b : Ball) (s : Surface) : ℝ :=
  let x1 := s.start.p_x
  let x2 := s.«end».p_x
  let y1 := s.start.p_y
  let y2 := s.«end».p_y
  let determinant := (y2 - y1) * b.p_x - (x2 - x1) * b.p_y + (x2 * y1 - y2 * x1)
  let length := Real.sqrt ((y2 - y1) ^ 2 + (x2 - x1) ^ 2)
  match s.surface_type with
  | .IN => -determinant / length
  | .OUT => determinant / length
  | .DOUBLE => |determinant / length|

/-- `PhysicsModel.ball_dist_from_every_surface`. -/
def PhysicsModel.ball_dist_from_every_surface (m : PhysicsModel) : List ℝ :=
  m.surfaces.map (surface_dist m.ball)

/-- Python's `min(...)` on a list (first-minimum; raises on an empty list,
where this model returns 0). -/
def list_min : List ℝ → ℝ
  | [] => 0
  | x :: xs => xs.foldl min x

/-- Python's `list.index(x)`: index of the first element equal to `x`
(raises when absent, where this model returns the list's length). -/
def list_index (x : ℝ) : List ℝ → ℕ
  | [] => 0
  | a :: l => if a = x then 0 else list_index x l + 1

/-- `PhysicsModel.ball_dist_from_next_surface`: the minimum distance. -/
def PhysicsModel.ball_dist_from_next_surface (m : PhysicsModel) : ℝ :=
  list_min m.ball_dist_from_every_surface

/-- `PhysicsModel.closest_surface`:
`self._surfaces[distances.index(dist)]`. -/
def PhysicsModel.closest_surface (m : PhysicsModel) : Surface :=
  m.surfaces.getD (list_index m.ball_dist_from_next_surface m.ball_dist_from_every_surface)
    ⟨⟨0, 0⟩, ⟨0, 0⟩, .IN⟩

/-- `PhysicsModel._surface_details()`: `(x1, y1, x2, y2)` of the closest
surface. -/
def PhysicsModel.surface_details (m : PhysicsModel) : ℝ × ℝ × ℝ × ℝ :=
  (m.closest_surface.start.p_x, m.closest_surface.start.p_y,
   m.closest_surface.«end».p_x, m.closest_surface.«end».p_y)

/-- `PhysicsModel.unit_vector(a)`:
`(cos(radians(a)), -sin(radians(a)))`. -/
def unit_vector (a : ℝ) : ℝ × ℝ :=
  (Real.cos (a * Real.pi / 180), -Real.sin (a * Real.pi / 180))

/-- `PhysicsModel.raycast(x1..y4)`: the 2x2 parametric solve; a zero
denominator is the source's `(inf, inf)` return, modelled as `none`.
`t` parametrizes the first segment `(x1,y1)-(x2,y2)` and `u` the second
`(x3,y3)-(x4,y4)`. -/
def raycast (x1 y1 x2 y2 x3 y3 x4 y4 : ℝ) : Option (ℝ × ℝ) :=
  let denom := (x1 - x2) * (y3 - y4) - (y1 - y2) * (x3 - x4)
  if denom = 0 then none
  else some (((x1 - x3) * (y3 - y4) - (y1 - y3) * (x3 - x4)) / denom,
             -((x1 - x2) * (y1 - y3) - (y1 - y2) * (x1 - x3)) / denom)

/-- The raycast `check_bounce` performs: probe from the ball's center one
unit-vector step along its direction `v_d`, against the closest surface. -/
def PhysicsModel.probe_raycast (m : PhysicsModel) : Option (ℝ × ℝ) :=
  let d := unit_vector m.ball.v_d
  let x3 := m.ball.p_x
  let y3 := m.ball.p_y
  match m.surface_details with
  | (x1, y1, x2, y2) => raycast x1 y1 x2 y2 x3 y3 (x3 + d.1) (y3 + d.2)

/-- The guard under which `check_bounce` calls `bounce()`: the raycast
returned a finite pair with `epsilon <= t <= 1 - epsilon` (epsilon = 1e-2)
and `0 <= u <= max_distance` (`max_distance` is the ball's speed `v_m`). -/
def PhysicsModel.bounce_triggered (m : PhysicsModel) : Prop :=
  match m.probe_raycast with
  | none => False
  | some (t, u) => 1e-2 ≤ t ∧ t ≤ 1 - 1e-2 ∧ 0 ≤ u ∧ u ≤ m.ball.v_m

/-- `PhysicsModel.bounce()`: reflect the velocity off the closest surface's
unit normal, each axis scaled by its bounce factor. -/
def PhysicsModel.bounce (m : PhysicsModel) : PhysicsModel :=
  let x1 := m.closest_surface.start.p_x
  let x2 := m.closest_surface.«end».p_x
  let y1 := m.closest_surface.start.p_y
  let y2 := m.closest_surface.«end».p_y
  let dx := x2 - x1
  let dy := y2 - y1
  let length := Real.sqrt (dx ^ 2 + dy ^ 2)
  let nx := -dy / length
  let ny := dx / length
  let dot := m.ball.v_x * nx + m.ball.v_y * ny
  { m with ball := { m.ball with
      v_x := m.ball.v_x - 2 * dot * nx * m.bounce_factor_x,
      v_y := m.ball.v_y - 2 * dot * ny * m.bounce_factor_y } }

/-- `PhysicsModel.check_bounce()`: bounce exactly when the guard holds. -/
def PhysicsModel.check_bounce (m : PhysicsModel) : PhysicsModel :=
  if m.bounce_triggered then m.bounce else m

/-- `PhysicsModel._accelerate_x`: `v_x += a_x`. -/
def PhysicsModel.accelerate_x (m : PhysicsModel) : PhysicsModel :=
  { m with ball := { m.ball with v_x := m.ball.v_x + m.ball.a_x } }

/-- `PhysicsModel._accelerate_y`: `v_y += a_y`. -/
def PhysicsModel.accelerate_y (m : PhysicsModel) : PhysicsModel :=
  { m with ball := { m.ball with v_y := m.ball.v_y + m.ball.a_y } }

/-- `PhysicsModel._move_x`: `p_x += v_x`. -/
def PhysicsModel.move_x (m : PhysicsModel) : PhysicsModel :=
  { m with ball := { m.ball with p_x := m.ball.p_x + m.ball.v_x } }

/-- `PhysicsModel._move_y`: `p_y += v_y`. -/
def PhysicsModel.move_y (m : PhysicsModel) : PhysicsModel :=
  { m with ball := { m.ball with p_y := m.ball.p_y + m.ball.v_y } }

/-- `PhysicsModel.height_update()`: check_bounce, accelerate, move. -/
def PhysicsModel.height_update (m : PhysicsModel) : PhysicsModel :=
  m.check_bounce.accelerate_x.accelerate_y.move_x.move_y

/-- `PhysicsModel.accelerate_to_gravity()`: `a_y = gravity`. -/
def PhysicsModel.accelerate_to_gravity (m : PhysicsModel) : PhysicsModel :=
  { m with ball := { m.ball with a_y := m.gravity } }

/-- `PhysicsModel.jump()`: `v_y = -JUMP_HEIGHT / fps`. -/
def PhysicsModel.jump (m : PhysicsModel) : PhysicsModel :=
  { m with ball := { m.ball with v_y := -Constants.JUMP_HEIGHT / m.fps } }

/-- `PhysicsModel.push_right()`: add the sideward impulse to `v_x` when it is
below `SPEED_LIMIT_X / fps`. -/
def PhysicsModel.push_right (m : PhysicsModel) : PhysicsModel :=
  if m.ball.v_x < Constants.SPEED_LIMIT_X / m.fps then
    { m with ball := { m.ball with
        v_x := m.ball.v_x + Constants.SIDEWARD_PUSH_ACCELERATION / m.fps ^ 2 } }
  else m

/-- `PhysicsModel.push_left()`. -/
def PhysicsModel.push_left (m : PhysicsModel) : PhysicsModel :=
  if m.ball.v_x > -Constants.SPEED_LIMIT_X / m.fps then
    { m with ball := { m.ball with
        v_x := m.ball.v_x - Constants.SIDEWARD_PUSH_ACCELERATION / m.fps ^ 2 } }
  else m

/-- `PhysicsModel.push_down()`: same guard shape on `v_y` (the source reuses
`SPEED_LIMIT_X` for the vertical limit). -/
def PhysicsModel.push_down (m : PhysicsModel) : PhysicsModel :=
  if m.ball.v_y < Constants.SPEED_LIMIT_X / m.fps then
    { m with ball := { m.ball with
        v_y := m.ball.v_y + Constants.SIDEWARD_PUSH_ACCELERATION / m.fps ^ 2 } }
  else m

/-- `PhysicsModel.push_up()`. -/
def PhysicsModel.push_up (m : PhysicsModel) : PhysicsModel :=
  if m.ball.v_y > -Constants.SPEED_LIMIT_X / m.fps then
    { m with ball := { m.ball with
        v_y := m.ball.v_y - Constants.SIDEWARD_PUSH_ACCELERATION / m.fps ^ 2 } }
  else m

/-- The length-4 horizontal segment `Segment(Point(0,0), Point(4,0))` of the
containment round-trip check. -/
def c1seg : Segment := ⟨⟨0, 0⟩, ⟨4, 0⟩⟩

/-- A model state at `fps = 1` whose ball moves right at `1999`, just below
the per-frame speed limit `SPEED_LIMIT_X / fps = 2000`. -/
def pushModel : PhysicsModel :=
  { gravity := 4000, bounce_factor_x := 1, bounce_factor_y := 1,
    frictional_constant := 1, surfaces := [], width := 10, height := 10,
    fps := 1, ball := ⟨0, 0, 1999, 0, 0, 0, 5, 0, 0⟩ }

/-- A model state in the standard 10 x 10 four-wall arena: the ball sits at
`(9.5, 5)` heading right (`v_d = 0`) with speed `v_m = 0.1`; the probe meets
the right wall at probe parameter `u = 0.5` and wall parameter `t = 0.5`. -/
def cexModel : PhysicsModel :=
  { gravity := 4000 / 3600, bounce_factor_x := 1, bounce_factor_y := 1,
    frictional_constant := 1,
    surfaces := [⟨⟨0, 0⟩, ⟨10, 0⟩, .IN⟩, ⟨⟨10, 0⟩, ⟨10, 10⟩, .IN⟩,
                 ⟨⟨10, 10⟩, ⟨0, 10⟩, .IN⟩, ⟨⟨0, 10⟩, ⟨0, 0⟩, .IN⟩],
    width := 10, height := 10, fps := 60,
    ball := ⟨19 / 2, 5, 0, 0, 0, 0, 5, 1 / 10, 0⟩ }

/-- A model state with one horizontal floor surface and ball velocity
`(3, 4)`, for exercising `bounce` against the closest surface. -/
def bounceModel : PhysicsModel :=
  { gravity := 4000 / 3600, bounce_factor_x := 1, bounce_factor_y := 1,
    frictional_constant := 1, surfaces := [⟨⟨0, 0⟩, ⟨10, 0⟩, .IN⟩],
    width := 10, height := 10, fps := 60, ball := ⟨5, 3, 3, 4, 0, 0, 5, 0, 0⟩ }

/-! General lemmas about the embedded primitives. -/

theorem Point.ext_eq {p q : Point} (h1 : p.p_x = q.p_x) (h2 : p.p_y = q.p_y) : p = q := by
  cases p; cases q; simp_all

theorem isclose_refl (a : ℝ) : isclose a a := by
  simp [isclose, isclose_tol]

theorem isclose_of_eq {a b : ℝ} (h : a = b) : isclose a b := h ▸ isclose_refl a

/-- With the default `abs_tol = 0`, `math.isclose(a, 0)` holds only at 0. -/
theorem isclose_zero_iff (a : ℝ) : isclose a 0 ↔ a = 0 := by
  simp only [isclose, isclose_tol]
  constructor
  · intro h
    have h1 : |a| ≤ 1e-9 * |a| ∨ a = 0 := by simpa using h
    rcases h1 with h1 | h1
    · have : |a| ≤ 0 := by nlinarith [abs_nonneg a]
      exact abs_eq_zero.mp (le_antisymm this (abs_nonneg a))
    · exact h1
  · intro h; simp [h]

theorem pointEq_of_eq {p q : Point} (h1 : p.p_x = q.p_x) (h2 : p.p_y = q.p_y) : pointEq p q :=
  ⟨isclose_of_eq h1, isclose_of_eq h2⟩

theorem normalEq_of_eq {n m : ℝ × ℝ} (h1 : n.1 = m.1) (h2 : n.2 = m.2) : normalEq n m :=
  ⟨isclose_of_eq h1, isclose_of_eq h2⟩

theorem normalEq_refl (n : ℝ × ℝ) : normalEq n n := normalEq_of_eq rfl rfl

/-- `Normal(x, y)` keeps an exactly-unit input unchanged. -/
theorem mkNormal_unit (x y : ℝ) (h : x ^ 2 + y ^ 2 = 1) : mkNormal x y = (x, y) := by
  have hc : isclose (Real.sqrt (x ^ 2 + y ^ 2)) 1 := by
    rw [h, Real.sqrt_one]; exact isclose_refl 1
  rw [mkNormal, if_neg (not_not_intro hc)]

theorem normalNeg_unit (x y : ℝ) (h : x ^ 2 + y ^ 2 = 1) : normalNeg (x, y) = (-x, -y) := by
  rw [normalNeg]
  exact mkNormal_unit _ _ (by ring_nf; ring_nf at h; linarith)

theorem sqrt_eval {a b : ℝ} (hb : 0 ≤ b) (h : b ^ 2 = a) : Real.sqrt a = b := by
  rw [← h]; exact Real.sqrt_sq hb

theorem sqrt_two_mul_self : Real.sqrt 2 * Real.sqrt 2 = 2 :=
  Real.mul_self_sqrt (by norm_num)

theorem sqrt_eight : Real.sqrt 8 = 2 * Real.sqrt 2 := by
  rw [show (8 : ℝ) = 4 * 2 by norm_num, Real.sqrt_mul (by norm_num : (0:ℝ) ≤ 4)]
  rw [sqrt_eval (by norm_num : (0:ℝ) ≤ 2) (by norm_num : (2:ℝ) ^ 2 = 4)]

theorem sqrt_hundred : Real.sqrt 100 = 10 :=
  sqrt_eval (by norm_num) (by norm_num)

/-- A nondegenerate Segment's stored normal is the normalized chord. -/
theorem seg_normal_eval (s : Segment) (h : s.origin ≠ s.«end») :
    s.normal = ((s.«end».p_x - s.origin.p_x) /
        Real.sqrt ((s.«end».p_x - s.origin.p_x) ^ 2 + (s.«end».p_y - s.origin.p_y) ^ 2),
      (s.«end».p_y - s.origin.p_y) /
        Real.sqrt ((s.«end».p_x - s.origin.p_x) ^ 2 + (s.«end».p_y - s.origin.p_y) ^ 2)) := by
  set dx := s.«end».p_x - s.origin.p_x with hdx
  set dy := s.«end».p_y - s.origin.p_y with hdy
  have hne : dx ^ 2 + dy ^ 2 ≠ 0 := by
    intro hz
    apply h
    have h1 : dx ^ 2 ≥ 0 := sq_nonneg _
    have h2 : dy ^ 2 ≥ 0 := sq_nonneg _
    have hx0 : dx = 0 := by nlinarith
    have hy0 : dy = 0 := by nlinarith
    rw [hdx] at hx0
    rw [hdy] at hy0
    exact (Point.ext_eq (by linarith) (by linarith)).symm
  have hpos : 0 < dx ^ 2 + dy ^ 2 := lt_of_le_of_ne (by positivity) (Ne.symm hne)
  have hL : 0 < Real.sqrt (dx ^ 2 + dy ^ 2) := Real.sqrt_pos.mpr hpos
  have hunit : (dx / Real.sqrt (dx ^ 2 + dy ^ 2)) ^ 2 +
      (dy / Real.sqrt (dx ^ 2 + dy ^ 2)) ^ 2 = 1 := by
    field_simp
  rw [Segment.normal, normal_normalize]
  simp only [← hdx, ← hdy]
  rw [mkNormal]
  rw [if_neg]
  simp only [not_not]
  have hs : Real.sqrt ((dx / Real.sqrt (dx ^ 2 + dy ^ 2)) ^ 2 +
      (dy / Real.sqrt (dx ^ 2 + dy ^ 2)) ^ 2) = 1 := by
    rw [hunit, Real.sqrt_one]
  rw [hs]
  exact isclose_refl 1

theorem seg_length_pos (s : Segment) (h : s.origin ≠ s.«end») : 0 < s.length := by
  rw [Segment.length, line_length]
  apply Real.sqrt_pos.mpr
  have hne : (s.«end».p_y - s.origin.p_y) ^ 2 + (s.«end».p_x - s.origin.p_x) ^ 2 ≠ 0 := by
    intro hz
    apply h
    have h1 : (s.«end».p_y - s.origin.p_y) ^ 2 ≥ 0 := sq_nonneg _
    have h2 : (s.«end».p_x - s.origin.p_x) ^ 2 ≥ 0 := sq_nonneg _
    have hx0 : s.«end».p_x - s.origin.p_x = 0 := by nlinarith
    have hy0 : s.«end».p_y - s.origin.p_y = 0 := by nlinarith
    exact Point.ext_eq (by linarith) (by linarith)
  exact lt_of_le_of_ne (by positivity) (Ne.symm hne)

/-- The solved parameters of `raycast` do name the crossing point: the point
at fraction `t` along the first segment equals the point at fraction `u`
along the second. -/
theorem raycast_sound {x1 y1 x2 y2 x3 y3 x4 y4 t u : ℝ}
    (h : raycast x1 y1 x2 y2 x3 y3 x4 y4 = some (t, u)) :
    x1 + t * (x2 - x1) = x3 + u * (x4 - x3) ∧
      y1 + t * (y2 - y1) = y3 + u * (y4 - y3) := by
  rw [raycast] at h
  by_cases hd : (x1 - x2) * (y3 - y4) - (y1 - y2) * (x3 - x4) = 0
  · rw [if_pos hd] at h
    exact absurd h (by simp)
  · rw [if_neg hd] at h
    have ht : t = ((x1 - x3) * (y3 - y4) - (y1 - y3) * (x3 - x4)) /
        ((x1 - x2) * (y3 - y4) - (y1 - y2) * (x3 - x4)) := by
      have := (Option.some.injEq _ _).mp h
      exact (Prod.mk.injEq _ _ _ _ |>.mp this).1.symm
    have hu : u = -((x1 - x2) * (y1 - y3) - (y1 - y2) * (x1 - x3)) /
        ((x1 - x2) * (y3 - y4) - (y1 - y2) * (x3 - x4)) := by
      have := (Option.some.injEq _ _).mp h
      exact (Prod.mk.injEq _ _ _ _ |>.mp this).2.symm
    subst ht hu
    constructor
    · field_simp
      ring
    · field_simp
      ring

/-- `check_bounce`'s raycast call, written out on the closest surface. -/
theorem probe_raycast_eq (m : PhysicsModel) :
    m.probe_raycast = raycast m.closest_surface.start.p_x m.closest_surface.start.p_y
      m.closest_surface.«end».p_x m.closest_surface.«end».p_y
      m.ball.p_x m.ball.p_y (m.ball.p_x + (unit_vector m.ball.v_d).1)
      (m.ball.p_y + (unit_vector m.ball.v_d).2) := rfl

/-- The normal of a rightward horizontal segment is `(1, 0)`. -/
theorem horiz_normal {x1 x2 y : ℝ} (h : 0 < x2 - x1) :
    (⟨⟨x1, y⟩, ⟨x2, y⟩⟩ : Segment).normal = (1, 0) := by
  rw [Segment.normal]
  simp only [normal_normalize]
  norm_num
  rw [Real.sqrt_sq h.le, div_self (ne_of_gt h)]
  exact mkNormal_unit 1 0 (by norm_num)

/-! Evaluation lemmas for claim C1's failing input. -/

theorem c1seg_normal : c1seg.normal = (1, 0) := by
  have h := @horiz_normal 0 4 0 (by norm_num)
  simpa [c1seg] using h

theorem c1seg_length : c1seg.length = 4 := by
  rw [Segment.length, line_length]
  simp only [c1seg]
  rw [show ((0:ℝ) - 0) ^ 2 + ((4:ℝ) - 0) ^ 2 = 16 by norm_num]
  exact sqrt_eval (by norm_num) (by norm_num)

/-- Claim C1 (code_bug): the containment round-trip fails on the code.  For
`Segment((0,0),(4,0))` and `t = 1/2` (inside the domain `[0,1]`),
`point_at_t` returns the genuine segment point `(2, 0)`, yet
`contains_check` rejects it: `loc_on_line` yields the arc-length parameter
`2.0`, which is compared against the normalized `[0,1]` bounds. -/
theorem c1_contains_roundtrip_code_bug :
    Segment.point_at_t c1seg (1 / 2) = some ⟨2, 0⟩ ∧ ¬ seg_contains ⟨2, 0⟩ c1seg := by
  constructor
  · simp only [Segment.point_at_t, c1seg_normal, c1seg_length]
    rw [if_pos]
    · simp only [move_through_normal, c1seg]
      norm_num
    · simp only [move_through_normal, c1seg]
      norm_num
  · simp only [seg_contains, contains_check, Segment.scalar_bounds]
    rw [c1seg_normal]
    simp only [loc_on_line, c1seg]
    norm_num [isclose, isclose_tol]

/-! Evaluation lemmas for claim C2's counterexample state. -/

theorem cex_dists :
    cexModel.ball_dist_from_every_surface = [5, 1 / 2, 5, 19 / 2] := by
  simp only [PhysicsModel.ball_dist_from_every_surface, cexModel, List.map, surface_dist]
  norm_num [sqrt_hundred]

theorem cex_closest : cexModel.closest_surface = ⟨⟨10, 0⟩, ⟨10, 10⟩, .IN⟩ := by
  rw [PhysicsModel.closest_surface, PhysicsModel.ball_dist_from_next_surface, cex_dists]
  norm_num [list_min, List.foldl, min_def, list_index]
  rfl

theorem cex_probe : cexModel.probe_raycast = some (1 / 2, 1 / 2) := by
  rw [probe_raycast_eq, cex_closest]
  have hv : cexModel.ball.v_d = 0 := rfl
  rw [hv]
  have huv : unit_vector 0 = (1, 0) := by
    rw [unit_vector]
    norm_num
  rw [huv]
  have hx : cexModel.ball.p_x = 19 / 2 := rfl
  have hy : cexModel.ball.p_y = 5 := rfl
  rw [raycast]
  rw [if_neg (by rw [hx, hy]; norm_num)]
  rw [hx, hy]
  norm_num

/-- Claim C2 (counterexample): the claim as stated — bounce iff the
intersection exists and the parameter along the probe (`u`, the raycast's
second output) lies in `[1e-2, 1-1e-2]` — is false at `cexModel`: there the
probe meets the wall at `u = 1/2` in that window, yet no bounce is
triggered, because the code also demands `u <= v_m = 1/10`. -/
theorem c2_trigger_claim_cex :
    ¬ (cexModel.bounce_triggered ↔
        ∃ t u : ℝ, cexModel.probe_raycast = some (t, u) ∧ 1e-2 ≤ u ∧ u ≤ 1 - 1e-2) := by
  intro h
  have ht : ¬ cexModel.bounce_triggered := by
    rw [PhysicsModel.bounce_triggered, cex_probe]
    have hm : cexModel.ball.v_m = 1 / 10 := rfl
    norm_num [hm]
  exact ht (h.mpr ⟨1 / 2, 1 / 2, cex_probe, by norm_num, by norm_num⟩)

/-- Claim C2 (amended): a bounce is triggered iff the probe-surface raycast
against the closest surface returns parameters `(t, u)` — `t` along the
surface, `u` along the probe — such that `t` lies in the tolerance window
`[1e-2, 1-1e-2]` and `u` lies in `[0, v_m]` (within the frame's travel),
where the surface point at fraction `t` is the probe point at distance
`u`. -/
theorem c2_bounce_trigger_characterization (m : PhysicsModel) :
    m.bounce_triggered ↔
      ∃ t u : ℝ, m.probe_raycast = some (t, u) ∧
        (1e-2 ≤ t ∧ t ≤ 1 - 1e-2) ∧ (0 ≤ u ∧ u ≤ m.ball.v_m) ∧
        m.closest_surface.start.p_x +
            t * (m.closest_surface.«end».p_x - m.closest_surface.start.p_x) =
          m.ball.p_x + u * (unit_vector m.ball.v_d).1 ∧
        m.closest_surface.start.p_y +
            t * (m.closest_surface.«end».p_y - m.closest_surface.start.p_y) =
          m.ball.p_y + u * (unit_vector m.ball.v_d).2 := by
  constructor
  · intro h
    rw [PhysicsModel.bounce_triggered] at h
    cases hpr : m.probe_raycast with
    | none => rw [hpr] at h; exact absurd h (by simp)
    | some tu =>
        obtain ⟨t, u⟩ := tu
        rw [hpr] at h
        obtain ⟨h1, h2, h3, h4⟩ := h
        have hs := raycast_sound (probe_raycast_eq m ▸ hpr)
        refine ⟨t, u, rfl, ⟨h1, h2⟩, ⟨h3, h4⟩, ?_, ?_⟩
        · have := hs.1
          linarith [this]
        · have := hs.2
          linarith [this]
  · rintro ⟨t, u, hpr, ⟨h1, h2⟩, ⟨h3, h4⟩, _, _⟩
    rw [PhysicsModel.bounce_triggered, hpr]
    exact ⟨h1, h2, h3, h4⟩

/-- Claim C3 (counterexample): at `fps = 1` with `v_x = 1999` (below the
limit `SPEED_LIMIT_X / fps = 2000`), `push_right` adds the full impulse and
leaves `v_x = 4099`, whose magnitude exceeds the limit. -/
theorem c3_push_right_exceeds_limit :
    (PhysicsModel.push_right pushModel).ball.v_x = 4099 ∧
      Constants.SPEED_LIMIT_X / pushModel.fps < |(4099 : ℝ)| := by
  constructor
  · norm_num [PhysicsModel.push_right, pushModel, Constants.SPEED_LIMIT_X,
      Constants.SIDEWARD_PUSH_ACCELERATION]
  · norm_num [pushModel, Constants.SPEED_LIMIT_X]

/-- Claim C3 (amended): the pushes check the limit before adding and do not
clamp afterwards, so the affected component never exceeds the larger of its
prior value and `SPEED_LIMIT_X / fps + SIDEWARD_PUSH_ACCELERATION / fps^2`
(an overshoot of up to one impulse past the limit), in the corresponding
direction for each of the four pushes. -/
theorem c3_push_speed_bound (m : PhysicsModel) :
    (PhysicsModel.push_right m).ball.v_x ≤
        max m.ball.v_x
          (Constants.SPEED_LIMIT_X / m.fps + Constants.SIDEWARD_PUSH_ACCELERATION / m.fps ^ 2) ∧
      (PhysicsModel.push_left m).ball.v_x ≥
        min m.ball.v_x
          (-Constants.SPEED_LIMIT_X / m.fps - Constants.SIDEWARD_PUSH_ACCELERATION / m.fps ^ 2) ∧
      (PhysicsModel.push_down m).ball.v_y ≤
        max m.ball.v_y
          (Constants.SPEED_LIMIT_X / m.fps + Constants.SIDEWARD_PUSH_ACCELERATION / m.fps ^ 2) ∧
      (PhysicsModel.push_up m).ball.v_y ≥
        min m.ball.v_y
          (-Constants.SPEED_LIMIT_X / m.fps - Constants.SIDEWARD_PUSH_ACCELERATION / m.fps ^ 2) := by
  refine ⟨?_, ?_, ?_, ?_⟩
  · rw [PhysicsModel.push_right]
    split
    · rename_i h
      exact le_max_of_le_right (by linarith)
    · exact le_max_left _ _
  · rw [PhysicsModel.push_left]
    split
    · rename_i h
      dsimp only
      exact min_le_of_right_le (by linarith)
    · exact min_le_left _ _
  · rw [PhysicsModel.push_down]
    split
    · rename_i h
      exact le_max_of_le_right (by linarith)
    · exact le_max_left _ _
  · rw [PhysicsModel.push_up]
    split
    · rename_i h
      dsimp only
      exact min_le_of_right_le (by linarith)
    · exact min_le_left _ _

/-- Claim C4 (counterexample): for the horizontal direction `(1, 0)` the two
Lines through the origin built from it and its negation are NOT equal —
`Line.__init__` flips only directions with `y < 0`, so `(1, 0)` and
`(-1, 0)` (both with `y = 0`) stay distinct stored normals. -/
theorem c4_horizontal_cex :
    ¬ lineEq (mkLine ⟨0, 0⟩ (1, 0)) (mkLine ⟨0, 0⟩ (-1, 0)) := by
  intro h
  have e1 : (mkLine (⟨0, 0⟩ : Point) ((1 : ℝ), (0 : ℝ))).normal = (1, 0) := by
    rw [mkLine]
    norm_num
  have e2 : (mkLine (⟨0, 0⟩ : Point) ((-1 : ℝ), (0 : ℝ))).normal = (-1, 0) := by
    rw [mkLine]
    norm_num
  have h2 := h.2
  rw [e1, e2] at h2
  have h1 := h2.1
  norm_num [isclose, isclose_tol] at h1

/-- Claim C4 (amended): for every point `p` and every unit direction `d` with
`d.y ≠ 0`, `Line(p, d)` and `Line(p, -d)` are equal Line values: the origin
is canonicalized to the same virtual intercept and the `y < 0` flip maps the
two directions to one representative.  (For `d.y = 0` the flip never fires
and the two Lines differ, see the counterexample.) -/
theorem c4_line_canonicalization (p : Point) (nx ny : ℝ)
    (hunit : nx ^ 2 + ny ^ 2 = 1) (hy : ny ≠ 0) :
    lineEq (mkLine p (nx, ny)) (mkLine p (-nx, -ny)) := by
  have hunitneg : (-nx) ^ 2 + (-ny) ^ 2 = 1 := by ring_nf; ring_nf at hunit; linarith
  by_cases hx : nx = 0
  · subst hx
    have hfv1 : find_virtual_intercept p ((0:ℝ), ny) = none := by
      rw [find_virtual_intercept, if_pos rfl]
    have hfv2 : find_virtual_intercept p (-(0:ℝ), -ny) = none := by
      rw [find_virtual_intercept, if_pos (by norm_num)]
    rcases lt_or_gt_of_ne hy with hneg | hpos
    · rw [mkLine, mkLine, hfv1, hfv2]
      simp only
      rw [if_pos (show ((0:ℝ), ny).2 < 0 from hneg),
        if_neg (show ¬ (-(0:ℝ), -ny).2 < 0 by simp; linarith)]
      refine ⟨pointEq_of_eq rfl rfl, ?_⟩
      rw [normalNeg_unit _ _ hunit]
      exact normalEq_of_eq (by norm_num) rfl
    · rw [mkLine, mkLine, hfv1, hfv2]
      simp only
      rw [if_neg (show ¬ ((0:ℝ), ny).2 < 0 by simp; linarith),
        if_pos (show (-(0:ℝ), -ny).2 < 0 by simp; linarith)]
      refine ⟨pointEq_of_eq rfl rfl, ?_⟩
      rw [normalNeg_unit _ _ hunitneg]
      exact normalEq_of_eq (by norm_num) (by norm_num)
  · have habs1 : ¬ normalEq (normalAbs (nx, ny)) (0, 1) := by
      intro h
      rw [normalAbs] at h
      by_cases hp : ((nx : ℝ), ny).2 > 0
      · rw [if_pos hp] at h
        exact hx (isclose_zero_iff _ |>.mp h.1)
      · rw [if_neg hp, normalNeg_unit _ _ hunit] at h
        have h0 := isclose_zero_iff _ |>.mp h.1
        simp only [neg_eq_zero] at h0
        exact hx h0
    have habs2 : ¬ normalEq (normalAbs (-nx, -ny)) (0, 1) := by
      intro h
      rw [normalAbs] at h
      by_cases hp : ((-nx : ℝ), -ny).2 > 0
      · rw [if_pos hp] at h
        have h0 := isclose_zero_iff _ |>.mp h.1
        simp only [neg_eq_zero] at h0
        exact hx h0
      · rw [if_neg hp, normalNeg_unit _ _ hunitneg] at h
        have h0 := isclose_zero_iff _ |>.mp h.1
        simp only [neg_neg] at h0
        exact hx h0
    have hfv1 : find_virtual_intercept p (nx, ny) =
        some (move_through_normal p (nx, ny) (-p.p_x / nx)) := by
      rw [find_virtual_intercept, if_neg hx]
    have hfv2 : find_virtual_intercept p (-nx, -ny) =
        some (move_through_normal p (-nx, -ny) (-p.p_x / -nx)) := by
      rw [find_virtual_intercept, if_neg (show ¬ (-nx, -ny).1 = 0 by simpa using hx)]
    rw [mkLine, mkLine, hfv1, hfv2]
    simp only
    rw [if_pos habs1, if_pos habs2]
    constructor
    · apply pointEq_of_eq
      · simp only [move_through_normal]
        field_simp
      · simp only [move_through_normal]
        field_simp
    · rcases lt_or_gt_of_ne hy with hneg | hpos
      · rw [if_pos (show ((nx : ℝ), ny).2 < 0 from hneg),
          if_neg (show ¬ ((-nx : ℝ), -ny).2 < 0 by simp; linarith)]
        rw [normalNeg_unit _ _ hunit]
        exact normalEq_of_eq rfl rfl
      · rw [if_neg (show ¬ ((nx : ℝ), ny).2 < 0 by simp; linarith),
          if_pos (show ((-nx : ℝ), -ny).2 < 0 by simp; linarith)]
        rw [normalNeg_unit _ _ hunitneg]
        exact normalEq_of_eq (by norm_num) (by norm_num)

/-- Witness for C4's amended theorem at `p = (0,0)`, `d = (3/5, 4/5)`. -/
theorem c4_line_canonicalization_witness :
    lineEq (mkLine ⟨0, 0⟩ (3 / 5, 4 / 5)) (mkLine ⟨0, 0⟩ (-(3 / 5), -(4 / 5))) :=
  c4_line_canonicalization ⟨0, 0⟩ (3 / 5) (4 / 5) (by norm_num) (by norm_num)

/-- Claim C5 (counterexample): the horizontal segment `((0,0),(1,0))` and its
reverse compare UNEQUAL: `Normal.__abs__` keeps a direction only when
`y > 0`, so at `y = 0` it maps `(1,0)` to `(-1,0)` and `(-1,0)` to `(1,0)`
— opposite representatives. -/
theorem c5_horizontal_cex :
    ¬ segEq ⟨⟨0, 0⟩, ⟨1, 0⟩⟩ ⟨⟨1, 0⟩, ⟨0, 0⟩⟩ := by
  intro h
  have h2 := h.2
  have ha : (⟨⟨0, 0⟩, ⟨1, 0⟩⟩ : Segment).normal = (1, 0) :=
    horiz_normal (show (0:ℝ) < 1 - 0 by norm_num)
  have hb : (⟨⟨1, 0⟩, ⟨0, 0⟩⟩ : Segment).normal = (-1, 0) := by
    rw [Segment.normal]
    simp only [normal_normalize]
    norm_num [Real.sqrt_one]
    exact mkNormal_unit (-1) 0 (by norm_num)
  rw [ha, hb, normalAbs, normalAbs] at h2
  rw [if_neg (by norm_num), if_neg (by norm_num)] at h2
  rw [normalNeg_unit 1 0 (by norm_num), normalNeg_unit (-1) 0 (by norm_num)] at h2
  have h1 := h2.1
  norm_num [isclose, isclose_tol] at h1

/-- Claim C5 (amended): `Segment(p, q) == Segment(q, p)` holds for every pair
of points with `p.y ≠ q.y` (the reversed chord's normal is the negation, and
for a nonzero `y` component `abs` maps both to the same representative; for
horizontal segments the equality fails, see the counterexample). -/
theorem c5_segment_reverse_eq (p q : Point) (hy : p.p_y ≠ q.p_y) :
    segEq ⟨p, q⟩ ⟨q, p⟩ := by
  have hne_a : (⟨p, q⟩ : Segment).origin ≠ (⟨p, q⟩ : Segment).«end» := by
    intro h
    exact hy (congrArg Point.p_y h)
  have hne_b : (⟨q, p⟩ : Segment).origin ≠ (⟨q, p⟩ : Segment).«end» := by
    intro h
    exact hy (congrArg Point.p_y h).symm
  have ha := seg_normal_eval ⟨p, q⟩ hne_a
  have hb := seg_normal_eval ⟨q, p⟩ hne_b
  simp only at ha hb
  set dx := q.p_x - p.p_x with hdx
  set dy := q.p_y - p.p_y with hdy
  have hdyne : dy ≠ 0 := by
    rw [hdy]
    intro h
    exact hy (by linarith)
  have hpos : 0 < dx ^ 2 + dy ^ 2 := by positivity
  have hLpos : 0 < Real.sqrt (dx ^ 2 + dy ^ 2) := Real.sqrt_pos.mpr (by positivity)
  have hLrev : Real.sqrt ((p.p_x - q.p_x) ^ 2 + (p.p_y - q.p_y) ^ 2) =
      Real.sqrt (dx ^ 2 + dy ^ 2) := by
    congr 1
    rw [hdx, hdy]
    ring
  have hb2 : (⟨q, p⟩ : Segment).normal =
      (-(dx / Real.sqrt (dx ^ 2 + dy ^ 2)), -(dy / Real.sqrt (dx ^ 2 + dy ^ 2))) := by
    rw [hb, hLrev]
    rw [Prod.mk.injEq]
    constructor
    · rw [show p.p_x - q.p_x = -dx from by rw [hdx]; ring, neg_div]
    · rw [show p.p_y - q.p_y = -dy from by rw [hdy]; ring, neg_div]
  constructor
  · left
    exact pointEq_of_eq rfl rfl
  · set X := dx / Real.sqrt (dx ^ 2 + dy ^ 2) with hX
    set Y := dy / Real.sqrt (dx ^ 2 + dy ^ 2) with hYdef
    have hunit : X ^ 2 + Y ^ 2 = 1 := by
      rw [hX, hYdef]
      field_simp
    have hYne : Y ≠ 0 := div_ne_zero hdyne (ne_of_gt hLpos)
    rw [ha, hb2, normalAbs, normalAbs]
    rcases lt_or_gt_of_ne hYne with hneg | hpos2
    · rw [if_neg (by dsimp only; linarith),
        if_pos (by dsimp only; linarith)]
      rw [normalNeg_unit _ _ hunit]
      exact normalEq_of_eq rfl rfl
    · rw [if_pos (by dsimp only; linarith),
        if_neg (by dsimp only; linarith)]
      rw [normalNeg_unit _ _ (show (-X) ^ 2 + (-Y) ^ 2 = 1 from by
        ring_nf; ring_nf at hunit; linarith)]
      exact normalEq_of_eq (by norm_num) (by norm_num)

/-- Witness for C5's amended theorem: the vertical segment `((0,0),(0,1))`
equals its reverse. -/
theorem c5_segment_reverse_eq_witness : segEq ⟨⟨0, 0⟩, ⟨0, 1⟩⟩ ⟨⟨0, 1⟩, ⟨0, 0⟩⟩ :=
  c5_segment_reverse_eq ⟨0, 0⟩ ⟨0, 1⟩ (by norm_num)

set_option maxHeartbeats 1000000 in
/-- Claim C6 (confirmed): a nondegenerate Segment's `point_at_t` yields no
point for every parameter outside `[0, 1]` by more than `1e-9` (in fact for
every parameter outside `[0, 1]`, via the bounding-box test), and a Ray's
`point_at_t` yields no point for every `t < 0`.  "Fails with OutOfDomain" is
the source's `return None`, modelled as `none`. -/
theorem c6_point_at_t_out_of_domain :
    (∀ (s : Segment), s.origin ≠ s.«end» → ∀ t : ℝ,
        t < -1e-9 ∨ 1 + 1e-9 < t → Segment.point_at_t s t = none) ∧
      (∀ (r : Ray) (t : ℝ), t < 0 → Ray.point_at_t r t = none) := by
  constructor
  · intro s hse t ht
    set ox := s.origin.p_x with hox
    set oy := s.origin.p_y with hoy
    set ex := s.«end».p_x with hex
    set ey := s.«end».p_y with hey
    set dx := ex - ox with hdx
    set dy := ey - oy with hdy
    have hnormal := seg_normal_eval s hse
    have hlen : s.length = Real.sqrt (dx ^ 2 + dy ^ 2) := by
      rw [Segment.length, line_length, add_comm]
    have hLpos : 0 < Real.sqrt (dx ^ 2 + dy ^ 2) := by
      rw [← hlen]; exact seg_length_pos s hse
    have hL0 : Real.sqrt (dx ^ 2 + dy ^ 2) ≠ 0 := ne_of_gt hLpos
    have hpx : (move_through_normal s.origin s.normal (t * s.length)).p_x = ox + t * dx := by
      rw [move_through_normal, hnormal, hlen]
      dsimp only
      rw [← hox, ← hex, ← hdx, ← hdy]
      field_simp
      ring
    have hpy : (move_through_normal s.origin s.normal (t * s.length)).p_y = oy + t * dy := by
      rw [move_through_normal, hnormal, hlen]
      dsimp only
      rw [← hoy, ← hey, ← hdx, ← hdy]
      field_simp
      ring
    have hd0 : dx ≠ 0 ∨ dy ≠ 0 := by
      by_contra hc
      push_neg at hc
      apply hse
      exact Point.ext_eq (by rw [← hox, ← hex]; linarith [hc.1])
        (by rw [← hoy, ← hey]; linarith [hc.2])
    simp only [Segment.point_at_t]
    rw [hpx, hpy]
    rw [if_neg]
    intro hcond
    obtain ⟨h1, h2, h3, h4⟩ := hcond
    clear hpx hpy hnormal hlen hLpos hL0
    have hext : ex = ox + dx := by rw [hdx]; ring
    have heyt : ey = oy + dy := by rw [hdy]; ring
    rcases hd0 with hdne | hdne
    · rcases lt_or_gt_of_ne hdne with hneg | hpos
      · have hmin : min ox ex = ex := min_eq_right (by linarith)
        have hmax : max ox ex = ox := max_eq_left (by linarith)
        rw [hmin] at h1
        rw [hmax] at h2
        rcases ht with ht | ht
        · nlinarith [mul_pos_of_neg_of_neg (show t < 0 by linarith) hneg]
        · nlinarith [mul_neg_of_pos_of_neg (show (0:ℝ) < t - 1 by linarith) hneg]
      · have hmin : min ox ex = ox := min_eq_left (by linarith)
        have hmax : max ox ex = ex := max_eq_right (by linarith)
        rw [hmin] at h1
        rw [hmax] at h2
        rcases ht with ht | ht
        · nlinarith [mul_neg_of_neg_of_pos (show t < 0 by linarith) hpos]
        · nlinarith [mul_pos (show (0:ℝ) < t - 1 by linarith) hpos]
    · rcases lt_or_gt_of_ne hdne with hneg | hpos
      · have hmin : min oy ey = ey := min_eq_right (by linarith)
        have hmax : max oy ey = oy := max_eq_left (by linarith)
        rw [hmin] at h3
        rw [hmax] at h4
        rcases ht with ht | ht
        · nlinarith [mul_pos_of_neg_of_neg (show t < 0 by linarith) hneg]
        · nlinarith [mul_neg_of_pos_of_neg (show (0:ℝ) < t - 1 by linarith) hneg]
      · have hmin : min oy ey = oy := min_eq_left (by linarith)
        have hmax : max oy ey = ey := max_eq_right (by linarith)
        rw [hmin] at h3
        rw [hmax] at h4
        rcases ht with ht | ht
        · nlinarith [mul_neg_of_neg_of_pos (show t < 0 by linarith) hpos]
        · nlinarith [mul_pos (show (0:ℝ) < t - 1 by linarith) hpos]
  · intro r t ht
    rw [Ray.point_at_t, if_pos ht]

/-! Evaluation lemmas for claim C7's collinear-overlap instance. -/

theorem habs_one_zero : normalAbs ((1 : ℝ), (0 : ℝ)) = (-1, -0) := by
  rw [normalAbs, if_neg (by norm_num)]
  exact normalNeg_unit 1 0 (by norm_num)

theorem not_habs_eq_vert : ¬ normalEq (normalAbs ((1 : ℝ), (0 : ℝ))) (0, 1) := by
  rw [habs_one_zero]
  intro h
  have h1 := h.1
  norm_num [isclose, isclose_tol] at h1

theorem mkline_horiz (x : ℝ) : mkLine ⟨x, 0⟩ (1, 0) = ⟨⟨0, 0⟩, (1, 0)⟩ := by
  rw [mkLine]
  simp only [find_virtual_intercept]
  rw [if_neg (by norm_num)]
  simp only
  rw [if_pos not_habs_eq_vert]
  rw [if_neg (by norm_num)]
  congr 1
  exact Point.ext_eq (by simp [move_through_normal]) (by simp [move_through_normal])

theorem loc_horiz (x o : ℝ) : loc_on_line ⟨x, 0⟩ ⟨o, 0⟩ (1, 0) = some (x - o) := by
  rw [loc_on_line]
  rw [if_neg (by norm_num), if_pos (by norm_num), if_pos (isclose_refl 0)]
  norm_num

theorem cont_horiz (x o : ℝ) : line_contains ⟨x, 0⟩ ⟨⟨o, 0⟩, (1, 0)⟩ := by
  rw [line_contains, contains_check]
  simp only [loc_horiz]
  right
  exact ⟨trivial, trivial⟩

theorem key_horiz (x o : ℝ) : sort_key ⟨o, 0⟩ (1, 0) ⟨x, 0⟩ = x - o := by
  rw [sort_key, loc_horiz]
  rfl

theorem c7_sorted :
    sorted_by_key ⟨0, 0⟩ (1, 0) [⟨0, 0⟩, ⟨4, 0⟩, ⟨2, 0⟩, ⟨6, 0⟩] =
      [⟨0, 0⟩, ⟨2, 0⟩, ⟨4, 0⟩, ⟨6, 0⟩] := by
  norm_num [sorted_by_key, List.foldl, insort, key_horiz]

theorem not_pointEq_24 : ¬ pointEq ⟨2, 0⟩ ⟨4, 0⟩ := by
  intro h
  have h1 := h.1
  norm_num [isclose, isclose_tol] at h1

theorem c7_test_eq : segEq ⟨⟨2, 0⟩, ⟨4, 0⟩⟩ ⟨⟨0, 0⟩, ⟨4, 0⟩⟩ := by
  constructor
  · right
    exact pointEq_of_eq rfl rfl
  · rw [horiz_normal (by norm_num : (0:ℝ) < 4 - 2), horiz_normal (by norm_num : (0:ℝ) < 4 - 0)]
    exact normalEq_refl _

theorem c7_cep :
    compare_ending_paths ⟨⟨0, 0⟩, ⟨4, 0⟩⟩ ⟨⟨2, 0⟩, ⟨6, 0⟩⟩ =
      some (.seg ⟨⟨2, 0⟩, ⟨4, 0⟩⟩) := by
  rw [compare_ending_paths]
  simp only [horiz_normal (by norm_num : (0:ℝ) < 4 - 0)]
  simp only [c7_sorted]
  rw [show ([⟨0, 0⟩, ⟨2, 0⟩, ⟨4, 0⟩, ⟨6, 0⟩] : List Point).getD 1 ⟨0, 0⟩ = ⟨2, 0⟩ from rfl,
    show ([⟨0, 0⟩, ⟨2, 0⟩, ⟨4, 0⟩, ⟨6, 0⟩] : List Point).getD 2 ⟨0, 0⟩ = ⟨4, 0⟩ from rfl]
  rw [if_neg not_pointEq_24]
  rw [if_pos (Or.inl c7_test_eq)]

theorem c7_check_collinear :
    check_collinear ⟨⟨0, 0⟩, ⟨4, 0⟩⟩ ⟨⟨2, 0⟩, ⟨6, 0⟩⟩ =
      some (.seg ⟨⟨2, 0⟩, ⟨4, 0⟩⟩) := by
  rw [check_collinear]
  simp only [horiz_normal (by norm_num : (0:ℝ) < 4 - 0),
    horiz_normal (by norm_num : (0:ℝ) < 6 - 2)]
  rw [if_neg]
  · exact c7_cep
  · push_neg
    refine ⟨normalEq_refl _, ?_, ?_⟩
    · rw [mkline_horiz]
      exact cont_horiz 0 0
    · rw [mkline_horiz]
      exact cont_horiz 2 0

/-- Claim C7 (confirmed): the intersection of `Segment((0,0),(4,0))` with
`Segment((2,0),(6,0))` is `Segment((2,0),(4,0))`: the collinearity check
accepts (equal canonical directions, each origin on the other's reference
line), the four defining points are sorted along the shared direction, and
the segment between the middle two points is returned. -/
theorem c7_collinear_overlap :
    intersects_line ⟨⟨0, 0⟩, ⟨4, 0⟩⟩ ⟨⟨2, 0⟩, ⟨6, 0⟩⟩ = some (.seg ⟨⟨2, 0⟩, ⟨4, 0⟩⟩) := by
  rw [intersects_line, c7_check_collinear]

/-- Reflection across a unit vector preserves the squared norm. -/
theorem reflect_sq (vx vy nx ny : ℝ) (h : nx ^ 2 + ny ^ 2 = 1) :
    (vx - 2 * (vx * nx + vy * ny) * nx * 1) ^ 2 +
      (vy - 2 * (vx * nx + vy * ny) * ny * 1) ^ 2 = vx ^ 2 + vy ^ 2 := by
  linear_combination (4 * (vx * nx + vy * ny) ^ 2) * h

/-- Claim C8 (confirmed): with both bounce factors 1 and a nondegenerate
closest surface, `bounce` preserves the squared speed exactly —
`v' = v - 2 (v . n) n` with the unit normal `n` of the surface. -/
theorem c8_bounce_preserves_speed (m : PhysicsModel)
    (hx : m.bounce_factor_x = 1) (hy : m.bounce_factor_y = 1)
    (hs : m.closest_surface.start ≠ m.closest_surface.«end») :
    (PhysicsModel.bounce m).ball.v_x ^ 2 + (PhysicsModel.bounce m).ball.v_y ^ 2 =
      m.ball.v_x ^ 2 + m.ball.v_y ^ 2 := by
  have hne : (m.closest_surface.«end».p_x - m.closest_surface.start.p_x) ^ 2 +
      (m.closest_surface.«end».p_y - m.closest_surface.start.p_y) ^ 2 ≠ 0 := by
    intro h
    apply hs
    have h1 : (m.closest_surface.«end».p_x - m.closest_surface.start.p_x) ^ 2 ≥ 0 := sq_nonneg _
    have h2 : (m.closest_surface.«end».p_y - m.closest_surface.start.p_y) ^ 2 ≥ 0 := sq_nonneg _
    have hx0 : m.closest_surface.«end».p_x - m.closest_surface.start.p_x = 0 := by nlinarith
    have hy0 : m.closest_surface.«end».p_y - m.closest_surface.start.p_y = 0 := by nlinarith
    exact Point.ext_eq (by linarith) (by linarith)
  have hpos : 0 < (m.closest_surface.«end».p_x - m.closest_surface.start.p_x) ^ 2 +
      (m.closest_surface.«end».p_y - m.closest_surface.start.p_y) ^ 2 :=
    lt_of_le_of_ne (by positivity) (Ne.symm hne)
  have hlen : 0 < Real.sqrt ((m.closest_surface.«end».p_x - m.closest_surface.start.p_x) ^ 2 +
      (m.closest_surface.«end».p_y - m.closest_surface.start.p_y) ^ 2) := Real.sqrt_pos.mpr hpos
  have hlensq : Real.sqrt ((m.closest_surface.«end».p_x - m.closest_surface.start.p_x) ^ 2 +
        (m.closest_surface.«end».p_y - m.closest_surface.start.p_y) ^ 2) ^ 2 =
      (m.closest_surface.«end».p_x - m.closest_surface.start.p_x) ^ 2 +
        (m.closest_surface.«end».p_y - m.closest_surface.start.p_y) ^ 2 :=
    Real.sq_sqrt (le_of_lt hpos)
  have hvx : (PhysicsModel.bounce m).ball.v_x
      = m.ball.v_x - 2 * (m.ball.v_x * (-(m.closest_surface.«end».p_y - m.closest_surface.start.p_y) /
          Real.sqrt ((m.closest_surface.«end».p_x - m.closest_surface.start.p_x) ^ 2 +
            (m.closest_surface.«end».p_y - m.closest_surface.start.p_y) ^ 2)) +
          m.ball.v_y * ((m.closest_surface.«end».p_x - m.closest_surface.start.p_x) /
          Real.sqrt ((m.closest_surface.«end».p_x - m.closest_surface.start.p_x) ^ 2 +
            (m.closest_surface.«end».p_y - m.closest_surface.start.p_y) ^ 2))) *
          (-(m.closest_surface.«end».p_y - m.closest_surface.start.p_y) /
          Real.sqrt ((m.closest_surface.«end».p_x - m.closest_surface.start.p_x) ^ 2 +
            (m.closest_surface.«end».p_y - m.closest_surface.start.p_y) ^ 2)) *
          m.bounce_factor_x := rfl
  have hvy : (PhysicsModel.bounce m).ball.v_y
      = m.ball.v_y - 2 * (m.ball.v_x * (-(m.closest_surface.«end».p_y - m.closest_surface.start.p_y) /
          Real.sqrt ((m.closest_surface.«end».p_x - m.closest_surface.start.p_x) ^ 2 +
            (m.closest_surface.«end».p_y - m.closest_surface.start.p_y) ^ 2)) +
          m.ball.v_y * ((m.closest_surface.«end».p_x - m.closest_surface.start.p_x) /
          Real.sqrt ((m.closest_surface.«end».p_x - m.closest_surface.start.p_x) ^ 2 +
            (m.closest_surface.«end».p_y - m.closest_surface.start.p_y) ^ 2))) *
          ((m.closest_surface.«end».p_x - m.closest_surface.start.p_x) /
          Real.sqrt ((m.closest_surface.«end».p_x - m.closest_surface.start.p_x) ^ 2 +
            (m.closest_surface.«end».p_y - m.closest_surface.start.p_y) ^ 2)) *
          m.bounce_factor_y := rfl
  rw [hvx, hvy, hx, hy]
  apply reflect_sq
  have hL0 : Real.sqrt ((m.closest_surface.«end».p_x - m.closest_surface.start.p_x) ^ 2 +
      (m.closest_surface.«end».p_y - m.closest_surface.start.p_y) ^ 2) ≠ 0 := ne_of_gt hlen
  field_simp
  linarith [hlensq]

theorem c8_closest : bounceModel.closest_surface = ⟨⟨0, 0⟩, ⟨10, 0⟩, .IN⟩ := by
  simp [PhysicsModel.closest_surface, PhysicsModel.ball_dist_from_next_surface,
    PhysicsModel.ball_dist_from_every_surface, bounceModel, list_min, list_index]

/-- Witness for C8 at a concrete one-surface model with velocity `(3, 4)`. -/
theorem c8_bounce_preserves_speed_witness :
    bounceModel.bounce_factor_x = 1 ∧ bounceModel.bounce_factor_y = 1 ∧
      bounceModel.closest_surface.start ≠ bounceModel.closest_surface.«end» ∧
      (PhysicsModel.bounce bounceModel).ball.v_x ^ 2 +
        (PhysicsModel.bounce bounceModel).ball.v_y ^ 2 =
        bounceModel.ball.v_x ^ 2 + bounceModel.ball.v_y ^ 2 := by
  have hs : bounceModel.closest_surface.start ≠ bounceModel.closest_surface.«end» := by
    rw [c8_closest]
    intro h
    have := congrArg Point.p_x h
    norm_num at this
  exact ⟨rfl, rfl, hs, c8_bounce_preserves_speed bounceModel rfl rfl hs⟩

/-- Claim C9 (confirmed): one `height_update` step leaves the surface list,
arena width and height, fps, the gravity constant, and the ball's radius and
acceleration components unchanged — it only mutates the ball's velocity (via
a possible bounce and the acceleration add) and position (via the move). -/
theorem c9_height_update_frame (m : PhysicsModel) :
    (PhysicsModel.height_update m).surfaces = m.surfaces ∧
    (PhysicsModel.height_update m).width = m.width ∧
    (PhysicsModel.height_update m).height = m.height ∧
    (PhysicsModel.height_update m).fps = m.fps ∧
    (PhysicsModel.height_update m).gravity = m.gravity ∧
    (PhysicsModel.height_update m).ball.r = m.ball.r ∧
    (PhysicsModel.height_update m).ball.a_x = m.ball.a_x ∧
    (PhysicsModel.height_update m).ball.a_y = m.ball.a_y := by
  simp only [PhysicsModel.height_update, PhysicsModel.move_y, PhysicsModel.move_x,
    PhysicsModel.accelerate_y, PhysicsModel.accelerate_x, PhysicsModel.check_bounce]
  split <;> simp [PhysicsModel.bounce]

/-! Evaluation lemmas for claim C10's concrete pair. -/

theorem sqrt_two_pos : 0 < Real.sqrt 2 := Real.sqrt_pos.mpr (by norm_num)

theorem c10a_normal :
    (⟨⟨0, 0⟩, ⟨2, 2⟩⟩ : Segment).normal = (Real.sqrt 2 / 2, Real.sqrt 2 / 2) := by
  rw [Segment.normal]
  simp only [normal_normalize]
  norm_num [sqrt_eight]
  have hc : 2 / (2 * Real.sqrt 2) = Real.sqrt 2 / 2 := by
    rw [div_eq_div_iff (by positivity) (by norm_num)]
    nlinarith [sqrt_two_mul_self]
  rw [hc]
  exact mkNormal_unit _ _ (by nlinarith [sqrt_two_mul_self])

theorem c10b_normal :
    (⟨⟨1, 1⟩, ⟨2, 2⟩⟩ : Segment).normal = (Real.sqrt 2 / 2, Real.sqrt 2 / 2) := by
  rw [Segment.normal]
  simp only [normal_normalize]
  norm_num
  have hc : (Real.sqrt 2)⁻¹ = Real.sqrt 2 / 2 := by
    rw [inv_eq_one_div, div_eq_div_iff (by positivity) (by norm_num)]
    nlinarith [sqrt_two_mul_self]
  rw [hc]
  exact mkNormal_unit _ _ (by nlinarith [sqrt_two_mul_self])

/-- Claim C10 (confirmed): `Segment.__eq__` does not require matching
origins — whenever `a.origin == b.end` or `a.end == b.end` and the
canonicalized directions agree, the segments compare equal; in particular
the collinear segments `((0,0),(2,2))` and `((1,1),(2,2))`, with different
origins and different lengths, compare equal. -/
theorem c10_segment_eq_lenient :
    (∀ a b : Segment,
        (pointEq a.origin b.«end» ∨ pointEq a.«end» b.«end») →
        normalEq (normalAbs a.normal) (normalAbs b.normal) → segEq a b) ∧
      segEq ⟨⟨0, 0⟩, ⟨2, 2⟩⟩ ⟨⟨1, 1⟩, ⟨2, 2⟩⟩ ∧
      (⟨⟨0, 0⟩, ⟨2, 2⟩⟩ : Segment).origin ≠ (⟨⟨1, 1⟩, ⟨2, 2⟩⟩ : Segment).origin ∧
      (⟨⟨0, 0⟩, ⟨2, 2⟩⟩ : Segment).length ≠ (⟨⟨1, 1⟩, ⟨2, 2⟩⟩ : Segment).length := by
  refine ⟨fun a b h1 h2 => ⟨h1, h2⟩, ⟨?_, ?_⟩, ?_, ?_⟩
  · right
    exact pointEq_of_eq rfl rfl
  · rw [c10a_normal, c10b_normal]
    exact normalEq_of_eq rfl rfl
  · intro h
    have := congrArg Point.p_x h
    norm_num at this
  · rw [Segment.length, Segment.length, line_length, line_length]
    norm_num [sqrt_eight]

end PhysicsEngine
